import Mathlib

/-!
Shallow embedding of the `nexus` finite-state-machine engine (`fsm.go`,
`errors.go`) and verification of its specification.

Modelling conventions:
* Go `State`/`Event` (string types) become `String` abbreviations.
* The Go payload pointer `*T` is threaded as a value: each action consumes
  the payload it is given and produces the payload handed to the next stage,
  exactly the fold structure of the `Trigger` loop
  (`args, err = handler.Fn(ctx, args)`).
* A Go function value that may be `nil` becomes an `Option`.
* `context.Context` is an opaque type parameter `C`: the engine never
  inspects it, it only forwards it to actions and the error handler.
* Action errors are an opaque type parameter `ε` (Go `error` values produced
  by caller code); the `error` value returned by `Trigger` is modelled by
  `TriggerErr ε`, whose `raw` constructor carries an action's own error
  value unchanged, mirroring Go returning the same interface value.
* `panic` is modelled by returning `none` from `New`.
* Logging is configuration of an external collaborator and does not affect
  transition semantics; it is omitted, except that the diagnostic
  "error-handler-invoked" event is reified as the `handlerCall` field of
  `TriggerResult` so that invocation of the error handler (and the handler's
  discarded result) is observable in the model.
* `sync.RWMutex` serialises the operations; the model is the sequential
  semantics obtained under that serialisation.
-/

set_option autoImplicit false

namespace Nexus

/-- `State` represents a state in the finite state machine (Go: `type State string`). -/
abbrev State := String

/-- `Event` represents an event that triggers a state transition (Go: `type Event string`). -/
abbrev Event := String

/-- The sentinel registry errors `ErrStateAlreadyExists` / `ErrStateSizeExceeded`
from `errors.go` that `States.Add` can wrap. -/
inductive StateErrKind where
  | stateAlreadyExists
  | stateSizeExceeded
  deriving DecidableEq, Repr

/-- Go `StateError{State, Op, Err}` from `errors.go`. -/
structure StateError where
  State : State
  Op : String
  Err : StateErrKind
  deriving DecidableEq, Repr

/-- The `error` value returned by `FSM.Trigger`: either a
`TransitionError{Message, State, Event, Err}` built by the engine
(`errors.go`), or a raw caller error propagated unchanged from an action
(the `raw` constructor carries the very value the action returned). -/
inductive TriggerErr (ε : Type) where
  | transitionError (Message : String) (State : State) (Event : Event) (Err : Option ε)
  | raw (e : ε)
  deriving DecidableEq, Repr

/-- `States` manages a collection of unique states (Go struct `States`).
The Go `map[State]struct{}` is modelled by its list of keys, kept
duplicate-free because `Add` inserts only after a failed `Exists` check.
`maxSize` is a Go `int`, hence `Int` (it may be negative). -/
structure States where
  stateMap : List State
  maxSize : Int
  deriving Repr

/-- `NewStates` creates a new `States` collection with maximum size. -/
def NewStates (size : Int) : States :=
  { stateMap := [], maxSize := size }

/-- `limitReached` checks if the maximum number of states has been reached
(Go: `s.maxSize > 0 && len(s.stateMap) >= s.maxSize`). -/
def States.limitReached (s : States) : Bool :=
  decide (s.maxSize > 0) && decide ((s.stateMap.length : Int) ≥ s.maxSize)

/-- `Exists` checks if a state exists in the collection. -/
def States.Exists (s : States) (state : State) : Bool :=
  s.stateMap.contains state

/-- `Add` adds a new state to the collection.  The Go method mutates the
receiver and returns an `error`; the model returns the updated collection
together with the optional error (on error the collection is unchanged). -/
def States.Add (s : States) (state : State) : States × Option StateError :=
  if s.Exists state then
    (s, some ⟨state, "Add", .stateAlreadyExists⟩)
  else if s.limitReached then
    (s, some ⟨state, "Add", .stateSizeExceeded⟩)
  else
    ({ s with stateMap := s.stateMap ++ [state] }, none)

/-- `Keys` returns a slice of all registered states (Go map iteration order
is unspecified; the spec states no contract depends on the order). -/
def States.Keys (s : States) : List State :=
  s.stateMap

/-- `ActionFunc` is a function that performs an action during a state
transition (Go: `func(ctx context.Context, args *T) (*T, error)`). -/
def ActionFunc (C T ε : Type) := C → T → T × Option ε

/-- `Action` that can be executed during a state transition; `Fn` is `none`
when the Go function field is `nil`. -/
structure Action (C T ε : Type) where
  Name : String
  Fn : Option (ActionFunc C T ε)

/-- `Transition` triggered by an event (Go struct `Transition[T]`). -/
structure Transition (C T ε : Type) where
  From : State
  To : State
  Event : Event
  Action : List (Action C T ε)

/-- `FSM` is the finite state machine (Go struct `FSM[T]`), restricted to
the fields that carry transition semantics: the logger and log options are
external-collaborator configuration, the mutex serialises calls.  The Go
zero values of `errorState` and `errorHandler` are `""` and `nil`. -/
structure FSM (C T ε : Type) where
  states : States
  currentState : State
  transitions : List (Transition C T ε)
  errorState : State
  errorHandler : Option (ActionFunc C T ε)

/-- `RegisterState` adds a new state to the FSM, delegating to `States.Add`
(the `f.states == nil` panic branch is unreachable in the model since
`states` is always a value). -/
def FSM.RegisterState {C T ε : Type} (f : FSM C T ε) (state : State) :
    FSM C T ε × Option StateError :=
  let r := f.states.Add state
  ({ f with states := r.1 }, r.2)

/-- `New` creates a new FSM instance.  Construction options other than
`WithMaxStates` only configure logging and are omitted; `maxStates`
defaults to `0` (no limit) and is a Go `int`.  The Go `panic` on a failed
registration of the initial state is modelled as `none`. -/
def New (C T ε : Type) (initialState : State) (maxStates : Int) :
    Option (FSM C T ε) :=
  let fsm : FSM C T ε :=
    { states := NewStates maxStates
      currentState := initialState
      transitions := []
      errorState := ""
      errorHandler := none }
  let r := fsm.RegisterState initialState
  match r.2 with
  | some _ => none
  | none => some r.1

/-- `AddTransition` registers a new transition from one state to another on
a given event; it appends unconditionally (the nil-slice panic branch is
unreachable in the model). -/
def FSM.AddTransition {C T ε : Type} (f : FSM C T ε)
    (fromState toState : State) (event : Event) (actions : List (Action C T ε)) :
    FSM C T ε :=
  { f with transitions := f.transitions ++ [⟨fromState, toState, event, actions⟩] }

/-- `handleError` is called when an error occurs during a transition
(Go lines 341–355).  It invokes the configured error handler, **discarding**
the handler's result (`_, err := f.errorHandler(ctx, args)`: the returned
payload and error are only logged), then moves to the error state when one
is configured.  The second component records the handler invocation's
result so the (diagnostic-only) call is observable; `originalErr` is used
by Go only for logging. -/
def FSM.handleError {C T ε : Type} (f : FSM C T ε) (ctx : C) (args : T)
    (_originalErr : TriggerErr ε) : FSM C T ε × Option (T × Option ε) :=
  let call := f.errorHandler.map fun h => h ctx args
  if f.errorState != "" then
    ({ f with currentState := f.errorState }, call)
  else
    (f, call)

/-- Outcome of running a transition's action chain. -/
inductive ChainOutcome (T ε : Type) where
  | ok (args : T)
  | nilFn (args : T)
  | failed (args : T) (e : ε)

/-- The action-chain loop of `FSM.Trigger` (Go lines 292–329), extracted as
a recursive function: each iteration replaces `args` with the payload
returned by the action (`args, err = handler.Fn(ctx, args)`), stops with
`nilFn` when an action's function is `nil`, and stops with `failed` (carrying
the payload the failing action returned) on the first non-nil error. -/
def execChain {C T ε : Type} (ctx : C) : T → List (Action C T ε) → ChainOutcome T ε
  | args, [] => .ok args
  | args, a :: rest =>
    match a.Fn with
    | none => .nilFn args
    | some fn =>
      let r := fn ctx args
      match r.2 with
      | some e => .failed r.1 e
      | none => execChain ctx r.1 rest

/-- The result of one `Trigger` call: the machine after the call, the
returned payload, the returned error, and the record of the error-handler
invocation (payload passed in, handler's discarded result), `none` when the
handler was not invoked. -/
structure TriggerResult (C T ε : Type) where
  fsm : FSM C T ε
  ret : T
  err : Option (TriggerErr ε)
  handlerCall : Option (T × (T × Option ε))

/-- `Trigger` attempts to transition the FSM to a new state based on the
given event (Go lines 248–336): look up the first transition whose
`From` equals the current state and whose `Event` equals the event; if none,
fail with `TransitionError "no transition found"`; otherwise run the action
chain; on chain success commit `currentState := transition.To`; on any
failure invoke `handleError` when an error handler or error state is
configured and return the error (an action's own error unwrapped). -/
def FSM.Trigger {C T ε : Type} (f : FSM C T ε) (ctx : C) (event : Event)
    (args : T) : TriggerResult C T ε :=
  match f.transitions.find? (fun t => t.From == f.currentState && t.Event == event) with
  | none =>
    let err : TriggerErr ε := .transitionError "no transition found" f.currentState event none
    if f.errorHandler.isSome || f.errorState != "" then
      let he := f.handleError ctx args err
      ⟨he.1, args, some err, he.2.map fun r => (args, r)⟩
    else
      ⟨f, args, some err, none⟩
  | some t =>
    match execChain ctx args t.Action with
    | .ok args2 => ⟨{ f with currentState := t.To }, args2, none, none⟩
    | .nilFn args2 =>
      let err : TriggerErr ε := .transitionError "no handler function defined" f.currentState event none
      if f.errorHandler.isSome || f.errorState != "" then
        let he := f.handleError ctx args2 err
        ⟨he.1, args2, some err, he.2.map fun r => (args2, r)⟩
      else
        ⟨f, args2, some err, none⟩
    | .failed args2 e =>
      let err : TriggerErr ε := .raw e
      if f.errorHandler.isSome || f.errorState != "" then
        let he := f.handleError ctx args2 err
        ⟨he.1, args2, some err, he.2.map fun r => (args2, r)⟩
      else
        ⟨f, args2, some err, none⟩

/-- `GetState` returns the current state of the FSM. -/
def FSM.GetState {C T ε : Type} (f : FSM C T ε) : State :=
  f.currentState

/-- `SetState` sets the current state of the FSM, bypassing the normal
transition mechanism. -/
def FSM.SetState {C T ε : Type} (f : FSM C T ε) (s : State) : FSM C T ε :=
  { f with currentState := s }

/-- `SetErrorHandler` configures an error handler and error state,
fully replacing any previous configuration. -/
def FSM.SetErrorHandler {C T ε : Type} (f : FSM C T ε) (errorState : State)
    (handler : Option (ActionFunc C T ε)) : FSM C T ε :=
  { f with errorState := errorState, errorHandler := handler }

/-- Specification-side view (spec §4.3 / §9): an action built from a pure,
error-free transform, used to state that chain execution is a left fold of
the action functions over the payload. -/
def pureAction {C T ε : Type} (name : String) (g : C → T → T) : Action C T ε :=
  { Name := name, Fn := some fun ctx a => (g ctx a, none) }

/-- A concrete error handler that itself fails, for witnesses. -/
def exampleHandler : ActionFunc Unit Nat String :=
  fun _ n => (n + 1, some "handler failed")

/-- A machine with a full error fallback (handler and error state) and no
transitions, for witnesses. -/
def exampleFallbackFSM : FSM Unit Nat String :=
  { states := { stateMap := ["a", "err"], maxSize := 0 }
    currentState := "a"
    transitions := []
    errorState := "err"
    errorHandler := some exampleHandler }

/-- A machine with two transitions sharing (From, Event), for witnesses. -/
def exampleDupFSM : FSM Unit Nat String :=
  { states := { stateMap := ["a", "b", "c"], maxSize := 0 }
    currentState := "a"
    transitions := [⟨"a", "b", "x", []⟩, ⟨"a", "c", "x", []⟩]
    errorState := ""
    errorHandler := none }

/-- A machine whose single transition has a three-action chain in which the
second action fails, for witnesses. -/
def exampleFailFSM : FSM Unit Nat String :=
  { states := { stateMap := ["a", "b"], maxSize := 0 }
    currentState := "a"
    transitions := [⟨"a", "b", "go",
      [pureAction "inc" fun _ n => n + 1,
       ⟨"boom", some fun _ n => (n * 10, some "boom failed")⟩,
       pureAction "never" fun _ n => n + 100]⟩]
    errorState := ""
    errorHandler := none }

/-- A machine with no transitions and no error fallback, for witnesses. -/
def exampleBareFSM : FSM Unit Nat String :=
  { states := { stateMap := ["s"], maxSize := 0 }
    currentState := "s"
    transitions := []
    errorState := ""
    errorHandler := none }

/-! ### Helper lemmas -/

theorem handleError_fst_currentState {C T ε : Type} (f : FSM C T ε) (ctx : C)
    (args : T) (e : TriggerErr ε) :
    (f.handleError ctx args e).1.currentState =
      if f.errorState = "" then f.currentState else f.errorState := by
  unfold FSM.handleError
  by_cases hes : f.errorState = "" <;> simp [hes]

theorem handleError_snd {C T ε : Type} (f : FSM C T ε) (ctx : C)
    (args : T) (e : TriggerErr ε) :
    (f.handleError ctx args e).2 = f.errorHandler.map fun h => h ctx args := by
  unfold FSM.handleError
  by_cases hes : f.errorState = "" <;> simp [hes]

theorem execChain_pureAction_cons {C T ε : Type} (ctx : C) (args : T)
    (name : String) (g : C → T → T) (rest : List (Action C T ε)) :
    execChain ctx args (pureAction name g :: rest) = execChain ctx (g ctx args) rest :=
  rfl

/-! ### Claims -/

/-- **C1.** After any `Trigger` call the current state is exactly one of:
the matched transition's `To` state (on full success), the configured error
state (on failure, when one is configured), or the state held before the
call (on failure, when no error state is configured) — never any other or
intermediate value. -/
theorem trigger_resulting_state {C T ε : Type} (f : FSM C T ε) (ctx : C)
    (event : Event) (args : T) :
    (∃ t, f.transitions.find? (fun tr => tr.From == f.currentState && tr.Event == event) = some t ∧
        (f.Trigger ctx event args).err = none ∧
        (f.Trigger ctx event args).fsm.currentState = t.To)
    ∨ ((f.Trigger ctx event args).err ≠ none ∧ f.errorState ≠ "" ∧
        (f.Trigger ctx event args).fsm.currentState = f.errorState)
    ∨ ((f.Trigger ctx event args).err ≠ none ∧ f.errorState = "" ∧
        (f.Trigger ctx event args).fsm.currentState = f.currentState) := by
  cases hfind : f.transitions.find? (fun tr => tr.From == f.currentState && tr.Event == event) with
  | none =>
    by_cases hes : f.errorState = ""
    · right; right
      refine ⟨?_, hes, ?_⟩ <;> cases hh : f.errorHandler <;>
        simp [FSM.Trigger, hfind, FSM.handleError, hes, hh]
    · right; left
      refine ⟨?_, hes, ?_⟩ <;>
        simp [FSM.Trigger, hfind, FSM.handleError, hes]
  | some t =>
    cases hchain : execChain ctx args t.Action with
    | ok args2 =>
      left
      exact ⟨t, rfl, by simp [FSM.Trigger, hfind, hchain],
        by simp [FSM.Trigger, hfind, hchain]⟩
    | nilFn args2 =>
      by_cases hes : f.errorState = ""
      · right; right
        refine ⟨?_, hes, ?_⟩ <;> cases hh : f.errorHandler <;>
          simp [FSM.Trigger, hfind, hchain, FSM.handleError, hes, hh]
      · right; left
        refine ⟨?_, hes, ?_⟩ <;>
          simp [FSM.Trigger, hfind, hchain, FSM.handleError, hes]
    | failed args2 e =>
      by_cases hes : f.errorState = ""
      · right; right
        refine ⟨?_, hes, ?_⟩ <;> cases hh : f.errorHandler <;>
          simp [FSM.Trigger, hfind, hchain, FSM.handleError, hes, hh]
      · right; left
        refine ⟨?_, hes, ?_⟩ <;>
          simp [FSM.Trigger, hfind, hchain, FSM.handleError, hes]

/-- Witness for C1: the state trichotomy instantiated at a machine whose
transition's chain fails mid-way with no fallback configured. -/
theorem trigger_resulting_state_witness :
    (∃ t, exampleFailFSM.transitions.find?
        (fun tr => tr.From == exampleFailFSM.currentState && tr.Event == "go") = some t ∧
        (exampleFailFSM.Trigger () "go" 0).err = none ∧
        (exampleFailFSM.Trigger () "go" 0).fsm.currentState = t.To)
    ∨ ((exampleFailFSM.Trigger () "go" 0).err ≠ none ∧ exampleFailFSM.errorState ≠ "" ∧
        (exampleFailFSM.Trigger () "go" 0).fsm.currentState = exampleFailFSM.errorState)
    ∨ ((exampleFailFSM.Trigger () "go" 0).err ≠ none ∧ exampleFailFSM.errorState = "" ∧
        (exampleFailFSM.Trigger () "go" 0).fsm.currentState = exampleFailFSM.currentState) :=
  trigger_resulting_state exampleFailFSM () "go" 0

/-- **C2.** Whenever `Trigger` fails and an error handler is configured,
the handler is invoked with the current payload; any error the handler
returns is never propagated (the returned error equals the one the machine
without a handler would return); and if an error state is configured the
current state is set to it unconditionally. -/
theorem trigger_error_fallback {C T ε : Type} (f : FSM C T ε)
    (h : ActionFunc C T ε) (ctx : C) (event : Event) (args : T)
    (hh : f.errorHandler = some h)
    (hfail : (f.Trigger ctx event args).err ≠ none) :
    (f.Trigger ctx event args).handlerCall =
      some ((f.Trigger ctx event args).ret, h ctx ((f.Trigger ctx event args).ret))
    ∧ (f.Trigger ctx event args).err =
      (FSM.Trigger { f with errorHandler := none } ctx event args).err
    ∧ (f.errorState ≠ "" → (f.Trigger ctx event args).fsm.currentState = f.errorState) := by
  cases hfind : f.transitions.find? (fun tr => tr.From == f.currentState && tr.Event == event) with
  | none =>
    refine ⟨?_, ?_, fun hes => ?_⟩
    · simp [FSM.Trigger, hfind, handleError_snd, hh]
    · by_cases hes : f.errorState = "" <;>
        simp [FSM.Trigger, hfind, hh, hes]
    · simp [FSM.Trigger, hfind, handleError_fst_currentState, hh, hes]
  | some t =>
    cases hchain : execChain ctx args t.Action with
    | ok args2 => simp [FSM.Trigger, hfind, hchain] at hfail
    | nilFn args2 =>
      refine ⟨?_, ?_, fun hes => ?_⟩
      · simp [FSM.Trigger, hfind, hchain, handleError_snd, hh]
      · by_cases hes : f.errorState = "" <;>
          simp [FSM.Trigger, hfind, hchain, hh, hes]
      · simp [FSM.Trigger, hfind, hchain, handleError_fst_currentState, hh, hes]
    | failed args2 e =>
      refine ⟨?_, ?_, fun hes => ?_⟩
      · simp [FSM.Trigger, hfind, hchain, handleError_snd, hh]
      · by_cases hes : f.errorState = "" <;>
          simp [FSM.Trigger, hfind, hchain, hh, hes]
      · simp [FSM.Trigger, hfind, hchain, handleError_fst_currentState, hh, hes]

/-- Witness for C2: a failing `Trigger` on a machine whose handler itself
fails still records the handler call, returns the original error, and lands
in the configured error state. -/
theorem trigger_error_fallback_witness :
    exampleFallbackFSM.errorHandler = some exampleHandler
    ∧ (exampleFallbackFSM.Trigger () "x" 0).err ≠ none
    ∧ ((exampleFallbackFSM.Trigger () "x" 0).handlerCall =
        some ((exampleFallbackFSM.Trigger () "x" 0).ret,
          exampleHandler () ((exampleFallbackFSM.Trigger () "x" 0).ret))
      ∧ (exampleFallbackFSM.Trigger () "x" 0).err =
        (FSM.Trigger { exampleFallbackFSM with errorHandler := none } () "x" 0).err
      ∧ (exampleFallbackFSM.errorState ≠ "" →
          (exampleFallbackFSM.Trigger () "x" 0).fsm.currentState =
            exampleFallbackFSM.errorState)) :=
  ⟨rfl, by decide,
    trigger_error_fallback exampleFallbackFSM exampleHandler () "x" 0 rfl (by decide)⟩

/-- **C3.** When two or more transitions match the pair (current state,
event), `Trigger` uses the one added earliest: it runs that transition's
chain and on success commits that transition's `To` state. -/
theorem trigger_first_match {C T ε : Type} (f : FSM C T ε) (ctx : C)
    (event : Event) (args : T) (ts₁ ts₂ : List (Transition C T ε))
    (t : Transition C T ε) (args2 : T)
    (heq : f.transitions = ts₁ ++ t :: ts₂)
    (ht : (t.From == f.currentState && t.Event == event) = true)
    (hpre : ∀ t' ∈ ts₁, (t'.From == f.currentState && t'.Event == event) = false)
    (hok : execChain ctx args t.Action = .ok args2) :
    f.Trigger ctx event args = ⟨{ f with currentState := t.To }, args2, none, none⟩ := by
  have hfind : ∀ l : List (Transition C T ε),
      (∀ t' ∈ l, (t'.From == f.currentState && t'.Event == event) = false) →
      (l ++ t :: ts₂).find? (fun tr => tr.From == f.currentState && tr.Event == event) = some t := by
    intro l
    induction l with
    | nil => intro _; simp [List.find?_cons, ht]
    | cons a l ih =>
      intro hl
      have ha := hl a (List.mem_cons_self a l)
      rw [List.cons_append, List.find?_cons, ha]
      exact ih fun t' ht' => hl t' (List.mem_cons_of_mem a ht')
  have hfind0 : f.transitions.find?
      (fun tr => tr.From == f.currentState && tr.Event == event) = some t := by
    rw [heq]; exact hfind ts₁ hpre
  simp [FSM.Trigger, hfind0, hok]

/-- Witness for C3: with transitions `a→b` and `a→c` both on event `x`
added in that order, triggering `x` from `a` commits to `b`, never `c`. -/
theorem trigger_first_match_witness :
    exampleDupFSM.transitions =
      [] ++ (⟨"a", "b", "x", []⟩ : Transition Unit Nat String) :: [⟨"a", "c", "x", []⟩]
    ∧ ((⟨"a", "b", "x", []⟩ : Transition Unit Nat String).From == exampleDupFSM.currentState
        && (⟨"a", "b", "x", []⟩ : Transition Unit Nat String).Event == "x") = true
    ∧ execChain () (0 : Nat) (⟨"a", "b", "x", []⟩ : Transition Unit Nat String).Action = .ok 0
    ∧ exampleDupFSM.Trigger () "x" 0 =
        ⟨{ exampleDupFSM with currentState := "b" }, 0, none, none⟩ :=
  ⟨rfl, rfl, rfl,
    trigger_first_match exampleDupFSM () "x" 0 [] [⟨"a", "c", "x", []⟩] ⟨"a", "b", "x", []⟩ 0
      rfl rfl (by simp) rfl⟩

/-- **C4.** The action chain is executed strictly in sequence, each action
receiving the payload returned by the previous one — a left fold of the
action functions over the initial payload — and an empty (or nil) chain is
a no-op success: `Trigger` commits the `To` state and returns the input
payload unchanged with a nil error. -/
theorem trigger_chain_fold {C T ε : Type} :
    (∀ (gs : List (String × (C → T → T))) (ctx : C) (args : T),
        execChain (ε := ε) ctx args (gs.map fun p => pureAction p.1 p.2) =
          .ok (gs.foldl (fun a p => p.2 ctx a) args))
    ∧ (∀ (f : FSM C T ε) (ctx : C) (event : Event) (args : T) (t : Transition C T ε),
        f.transitions.find? (fun tr => tr.From == f.currentState && tr.Event == event) = some t →
        t.Action = [] →
        f.Trigger ctx event args = ⟨{ f with currentState := t.To }, args, none, none⟩) := by
  constructor
  · intro gs ctx args
    induction gs generalizing args with
    | nil => rfl
    | cons p l ih =>
      rw [List.map_cons, execChain_pureAction_cons, List.foldl_cons]
      exact ih (p.2 ctx args)
  · intro f ctx event args t hfind hact
    simp [FSM.Trigger, hfind, hact, execChain]

/-- Witness for C4: two pure actions fold left over the payload
(`(3 + 1) * 2 = 8`), and an action-less matched transition commits the
target state returning the payload unchanged. -/
theorem trigger_chain_fold_witness :
    execChain () (3 : Nat)
        (([("a1", fun _ n => n + 1), ("a2", fun _ n => n * 2)] :
            List (String × (Unit → Nat → Nat))).map fun p => pureAction (ε := String) p.1 p.2) =
      .ok 8
    ∧ exampleDupFSM.transitions.find?
        (fun tr => tr.From == exampleDupFSM.currentState && tr.Event == "x") =
      some ⟨"a", "b", "x", []⟩
    ∧ (⟨"a", "b", "x", []⟩ : Transition Unit Nat String).Action = []
    ∧ exampleDupFSM.Trigger () "x" 0 =
        ⟨{ exampleDupFSM with currentState := "b" }, 0, none, none⟩ := by
  refine ⟨?_, rfl, rfl, ?_⟩
  · have h := (trigger_chain_fold (C := Unit) (T := Nat) (ε := String)).1
      [("a1", fun _ n => n + 1), ("a2", fun _ n => n * 2)] () 3
    simpa using h
  · exact (trigger_chain_fold (C := Unit) (T := Nat) (ε := String)).2
      exampleDupFSM () "x" 0 ⟨"a", "b", "x", []⟩ rfl rfl

/-- **C5.** When an action in a matched chain returns a non-nil error,
`Trigger` returns exactly that error value unwrapped (`TriggerErr.raw`),
together with the payload the failing action returned; the remaining
actions are never executed (the chain outcome does not depend on them). -/
theorem trigger_action_error {C T ε : Type} :
    (∀ (ctx : C) (p : T) (a : Action C T ε) (fn : ActionFunc C T ε) (p' : T) (e : ε)
        (rest : List (Action C T ε)),
        a.Fn = some fn → fn ctx p = (p', some e) →
        execChain ctx p (a :: rest) = .failed p' e)
    ∧ (∀ (f : FSM C T ε) (ctx : C) (event : Event) (args : T)
        (t : Transition C T ε) (p : T) (e : ε),
        f.transitions.find? (fun tr => tr.From == f.currentState && tr.Event == event) = some t →
        execChain ctx args t.Action = .failed p e →
        (f.Trigger ctx event args).err = some (.raw e) ∧
        (f.Trigger ctx event args).ret = p) := by
  constructor
  · intro ctx p a fn p' e rest ha hfn
    simp [execChain, ha, hfn]
  · intro f ctx event args t p e hfind hchain
    constructor <;> by_cases hes : f.errorState = "" <;> cases hh : f.errorHandler <;>
      simp [FSM.Trigger, hfind, hchain, FSM.handleError, hes, hh]

/-- Witness for C5: in a three-action chain whose second action fails with
error `"boom failed"` at payload `10`, `Trigger` returns exactly that raw
error and payload `10` — the third action (`+100`) never ran. -/
theorem trigger_action_error_witness :
    (⟨"boom", some fun _ n => (n * 10, some "boom failed")⟩ : Action Unit Nat String).Fn =
      some (fun _ n => (n * 10, some "boom failed"))
    ∧ (fun (_ : Unit) (n : Nat) => (n * 10, some "boom failed")) () 1 = (10, some "boom failed")
    ∧ execChain () (1 : Nat)
        ((⟨"boom", some fun _ n => (n * 10, some "boom failed")⟩ : Action Unit Nat String) ::
          [pureAction "never" fun _ n => n + 100]) = .failed 10 "boom failed"
    ∧ ((exampleFailFSM.Trigger () "go" 0).err = some (.raw "boom failed")
      ∧ (exampleFailFSM.Trigger () "go" 0).ret = 10) := by
  refine ⟨rfl, rfl, ?_, ?_⟩
  · exact trigger_action_error.1 () 1 _ _ 10 "boom failed"
      [pureAction "never" fun _ n => n + 100] rfl rfl
  · exact trigger_action_error.2 exampleFailFSM () "go" 0
      ⟨"a", "b", "go",
        [pureAction "inc" fun _ n => n + 1,
         ⟨"boom", some fun _ n => (n * 10, some "boom failed")⟩,
         pureAction "never" fun _ n => n + 100]⟩ 10 "boom failed" rfl rfl

/-- **C6.** When no transition matches (current state, event), `Trigger`
returns a non-nil `TransitionError` with that state and event, message
`"no transition found"` and nil wrapped cause; and with no error handler
and no error state configured, the payload and the current state are
unchanged. -/
theorem trigger_no_match {C T ε : Type} (f : FSM C T ε) (ctx : C)
    (event : Event) (args : T)
    (hfind : f.transitions.find?
      (fun tr => tr.From == f.currentState && tr.Event == event) = none) :
    (f.Trigger ctx event args).err =
      some (.transitionError "no transition found" f.currentState event none)
    ∧ (f.errorHandler = none → f.errorState = "" →
        (f.Trigger ctx event args).ret = args ∧
        (f.Trigger ctx event args).fsm.currentState = f.currentState) := by
  constructor
  · by_cases hes : f.errorState = "" <;> cases hh : f.errorHandler <;>
      simp [FSM.Trigger, hfind, FSM.handleError, hes, hh]
  · intro hh hes
    simp [FSM.Trigger, hfind, hes, hh]

/-- Witness for C6: triggering event `"e"` on a machine in state `"s"`
with no transitions and no fallback returns the no-match
`TransitionError` and leaves payload `7` and state `"s"` unchanged. -/
theorem trigger_no_match_witness :
    exampleBareFSM.transitions.find?
      (fun tr => tr.From == exampleBareFSM.currentState && tr.Event == "e") = none
    ∧ ((exampleBareFSM.Trigger () "e" 7).err =
        some (.transitionError "no transition found" exampleBareFSM.currentState "e" none)
      ∧ (exampleBareFSM.errorHandler = none → exampleBareFSM.errorState = "" →
          (exampleBareFSM.Trigger () "e" 7).ret = 7 ∧
          (exampleBareFSM.Trigger () "e" 7).fsm.currentState = exampleBareFSM.currentState)) :=
  ⟨rfl, trigger_no_match exampleBareFSM () "e" 7 rfl⟩

/-- **C7.** `States.Add`: adding a member fails with `StateAlreadyExists`
and leaves the registry unchanged (the duplicate check precedes the
capacity check, so this holds even at capacity); a distinct add at capacity
fails with `StateCapacityExceeded` and leaves the registry unchanged; a
distinct add below capacity — in particular whenever fewer than `maxSize`
states are registered, which is why the first `N` distinct calls succeed
and the `(N+1)`-th fails — inserts and succeeds; and with a non-positive
`maxSize` (0 = unlimited) a distinct add never fails. -/
theorem states_add_cases :
    (∀ (s : States) (st : State), s.Exists st = true →
        s.Add st = (s, some ⟨st, "Add", .stateAlreadyExists⟩))
    ∧ (∀ (s : States) (st : State), s.Exists st = false → s.limitReached = true →
        s.Add st = (s, some ⟨st, "Add", .stateSizeExceeded⟩))
    ∧ (∀ (s : States) (st : State), s.Exists st = false → s.limitReached = false →
        s.Add st = ({ s with stateMap := s.stateMap ++ [st] }, none))
    ∧ (∀ (s : States) (st : State), s.Exists st = false →
        (s.stateMap.length : Int) < s.maxSize →
        s.Add st = ({ s with stateMap := s.stateMap ++ [st] }, none))
    ∧ (∀ (s : States) (st : State), s.maxSize ≤ 0 → s.Exists st = false →
        s.Add st = ({ s with stateMap := s.stateMap ++ [st] }, none))
    ∧ (∀ s : States, s.limitReached = true ↔
        s.maxSize > 0 ∧ (s.stateMap.length : Int) ≥ s.maxSize) := by
  refine ⟨?_, ?_, ?_, ?_, ?_, ?_⟩
  · intro s st hex
    simp [States.Add, hex]
  · intro s st hex hlim
    simp [States.Add, hex, hlim]
  · intro s st hex hlim
    simp [States.Add, hex, hlim]
  · intro s st hex hlen
    have hlim : s.limitReached = false := by
      simp only [States.limitReached, Bool.and_eq_false_iff, decide_eq_false_iff_not]
      omega
    simp [States.Add, hex, hlim]
  · intro s st hmax hex
    have hlim : s.limitReached = false := by
      simp only [States.limitReached, Bool.and_eq_false_iff, decide_eq_false_iff_not]
      omega
    simp [States.Add, hex, hlim]
  · intro s
    simp [States.limitReached]

/-- Witness for C7: on the full registry `{a, b}` with `maxSize = 2`,
re-adding the member `a` fails with `StateAlreadyExists` (duplicate check
wins over capacity), adding a third distinct state fails with
`StateCapacityExceeded`, both leaving the registry unchanged; on `{a}` with
`maxSize = 2` the second distinct add succeeds, and with `maxSize = 0` a
distinct add always succeeds. -/
theorem states_add_cases_witness :
    (States.mk ["a", "b"] 2).Exists "a" = true
    ∧ (States.mk ["a", "b"] 2).Add "a" =
        (States.mk ["a", "b"] 2, some ⟨"a", "Add", .stateAlreadyExists⟩)
    ∧ (States.mk ["a", "b"] 2).Exists "c" = false
    ∧ (States.mk ["a", "b"] 2).limitReached = true
    ∧ (States.mk ["a", "b"] 2).Add "c" =
        (States.mk ["a", "b"] 2, some ⟨"c", "Add", .stateSizeExceeded⟩)
    ∧ (States.mk ["a"] 2).Add "b" = (States.mk ["a", "b"] 2, none)
    ∧ (States.mk ["a"] 0).Add "b" = (States.mk ["a", "b"] 0, none) := by
  refine ⟨by decide, ?_, by decide, by decide, ?_, ?_, ?_⟩
  · exact states_add_cases.1 (States.mk ["a", "b"] 2) "a" (by decide)
  · exact states_add_cases.2.1 (States.mk ["a", "b"] 2) "c" (by decide) (by decide)
  · exact states_add_cases.2.2.2.1 (States.mk ["a"] 2) "b" (by decide) (by decide)
  · exact states_add_cases.2.2.2.2.1 (States.mk ["a"] 0) "b" (by decide) (by decide)

/-- **C8.** `New` never panics: on the freshly created empty registry the
auto-registration of the initial state can fail neither by duplicate nor by
capacity (for any `maxStates`, including non-positive values), so `New`
returns a machine whose current state is the supplied initial state, which
is a member of the registry. -/
theorem new_registers_initial {C T ε : Type} (st : State) (m : Int) :
    ∃ f : FSM C T ε, New C T ε st m = some f ∧ f.currentState = st ∧
      f.states.Exists st = true := by
  have hlim : ({ stateMap := [], maxSize := m } : States).limitReached = false := by
    simp only [States.limitReached, Bool.and_eq_false_iff, decide_eq_false_iff_not]
    simp
    omega
  refine ⟨{ states := { stateMap := [st], maxSize := m }, currentState := st,
            transitions := [], errorState := "", errorHandler := none }, ?_, rfl, ?_⟩
  · simp [New, NewStates, FSM.RegisterState, States.Add, States.Exists, hlim]
  · simp [States.Exists]

/-- Witness for C8: `New` at initial state `"idle"` with the default
`maxStates = 0`. -/
theorem new_registers_initial_witness :
    ∃ f : FSM Unit Nat String, New Unit Nat String "idle" 0 = some f ∧
      f.currentState = "idle" ∧ f.states.Exists "idle" = true :=
  new_registers_initial "idle" 0

/-- **C9.** `SetErrorHandler` with `""` as the error state behaves as if no
error state were configured: on a failing `Trigger` the handler is still
invoked with the current payload, but the current state stays unchanged —
the error fallback can never move the machine into a state named `""`. -/
theorem setErrorHandler_empty_error_state {C T ε : Type} (f : FSM C T ε)
    (h : ActionFunc C T ε) (ctx : C) (event : Event) (args : T)
    (hfail : ((f.SetErrorHandler "" (some h)).Trigger ctx event args).err ≠ none) :
    ((f.SetErrorHandler "" (some h)).Trigger ctx event args).handlerCall =
      some (((f.SetErrorHandler "" (some h)).Trigger ctx event args).ret,
        h ctx (((f.SetErrorHandler "" (some h)).Trigger ctx event args).ret))
    ∧ ((f.SetErrorHandler "" (some h)).Trigger ctx event args).fsm.currentState =
      f.currentState := by
  cases hfind : f.transitions.find? (fun tr => tr.From == f.currentState && tr.Event == event) with
  | none =>
    constructor <;> simp [FSM.Trigger, FSM.SetErrorHandler, hfind, FSM.handleError]
  | some t =>
    cases hchain : execChain ctx args t.Action with
    | ok args2 =>
      simp [FSM.Trigger, FSM.SetErrorHandler, hfind, hchain] at hfail
    | nilFn args2 =>
      constructor <;>
        simp [FSM.Trigger, FSM.SetErrorHandler, hfind, hchain, FSM.handleError]
    | failed args2 e =>
      constructor <;>
        simp [FSM.Trigger, FSM.SetErrorHandler, hfind, hchain, FSM.handleError]

/-- Witness for C9: after `SetErrorHandler "" handler` a failing `Trigger`
still invokes the handler but leaves the machine in its old state `"s"`. -/
theorem setErrorHandler_empty_error_state_witness :
    ((exampleBareFSM.SetErrorHandler "" (some exampleHandler)).Trigger () "e" 7).err ≠ none
    ∧ (((exampleBareFSM.SetErrorHandler "" (some exampleHandler)).Trigger () "e" 7).handlerCall =
        some (((exampleBareFSM.SetErrorHandler "" (some exampleHandler)).Trigger () "e" 7).ret,
          exampleHandler ()
            (((exampleBareFSM.SetErrorHandler "" (some exampleHandler)).Trigger () "e" 7).ret))
      ∧ ((exampleBareFSM.SetErrorHandler "" (some exampleHandler)).Trigger
          () "e" 7).fsm.currentState = exampleBareFSM.currentState) :=
  ⟨by decide,
    setErrorHandler_empty_error_state exampleBareFSM exampleHandler () "e" 7 (by decide)⟩

end Nexus
